import Mathlib

/-!
# Verification of `manifold_twins.py` (twins_embedding)

A shallow embedding, in Lean 4, of the parts of `ManifoldTwinsAnalysis`
(file `manifold_twins.py`) that the checked claims are about:

* the out-of-sample Gaussian-process prediction loop `_predict_gp_oos`
  (the GP library call `_predict_gp` is kept abstract, since the claims
  are only about which rows condition each prediction);
* the blinding step of `_parse_rbtl_result` / `read_between_the_lines`;
* the phase-coefficient matrix construction of `model_maximum_spectra`;
* the cache / configuration-error control flow of `model_maximum_spectra`
  and the `md5`-based cache-key construction;
* the per-target `center_mask` construction of `__init__`;
* the attribute-read behaviour of `get_mags`, `fit_gp`,
  `apply_gp_standardization` and the module's global namespace
  (which attribute names the class ever assigns, and which global names
  the module ever defines).

Python floats are modelled as `ℚ`, numpy arrays as `List`s, thrown
exceptions as `Except`.
-/

namespace ManifoldTwins

/-! ## Python-level errors

The exception kinds that the claims distinguish: `AttributeError` (reading
a `self.<name>` attribute that was never assigned), `NameError` (evaluating
a global name the module never defines), and the repository's own
`ManifoldTwinsException`. -/

inductive PyError where
  | attributeError (name : String)
  | nameError (name : String)
  | manifoldTwinsException (msg : String)
  deriving DecidableEq, Repr

/-! ## The module's global namespace

`manifold_twins.py` defines exactly these module-level names: one name per
`import` / `from ... import ...` line (lines 1-16) plus the two class
statements.  In particular `import utils` binds only the name `utils`;
`fill_mask` and `frac_to_mag` live inside the `utils` module and are never
imported into this namespace. -/

def moduleGlobals : List String :=
  [ "Table"          -- from astropy.table import Table
  , "md5"            -- from hashlib import md5
  , "Dataset"        -- from idrtools import Dataset, math
  , "math"
  , "plt"            -- from matplotlib import pyplot as plt
  , "Axes3D"         -- from mpl_toolkits.mplot3d import Axes3D
  , "minimize"       -- from scipy.optimize import minimize
  , "Isomap"         -- from sklearn.manifold import Isomap
  , "extinction"     -- import extinction
  , "np"             -- import numpy as np
  , "os"             -- import os
  , "sys"            -- import sys
  , "tqdm"           -- import tqdm
  , "default_settings"  -- from settings import default_settings
  , "utils"          -- import utils
  , "specind"        -- import specind
  , "ManifoldTwinsException"
  , "ManifoldTwinsAnalysis" ]

/-- Python name resolution for a name read inside a method body: local
variables first, then the module's globals, otherwise `NameError`.
(The names the claims are about are never assigned anywhere in their
enclosing function, so a failed lookup is a `NameError`, not an
`UnboundLocalError`.) -/
def resolveName (locals : List String) (name : String) : Except PyError Unit :=
  if name ∈ locals then .ok ()
  else if name ∈ moduleGlobals then .ok ()
  else .error (.nameError name)

/-- The local variables assigned anywhere in the body of `fit_gp`
(arguments, assignments and `def`s; transcribed from lines 724-801). -/
def fit_gp_locals : List String :=
  [ "self", "verbose", "kind", "start_hyperparameters"
  , "good_embedding", "good_mags", "good_colors", "good_pec_vel", "good_mask"
  , "to_min", "res"
  , "full_embedding", "full_mags", "full_colors", "full_pec_vel", "full_mask"
  , "preds", "pred_vars", "good_corr_mags"
  , "calculate_covariance_finite_difference", "param_names", "chisq", "cov" ]

/-- The local variables assigned anywhere in the body of
`apply_gp_standardization` (transcribed from lines 803-845). -/
def apply_gp_standardization_locals : List String :=
  [ "self", "verbose", "hyperparameters", "phase", "kind", "to_min", "res"
  , "good_embedding", "good_mags", "good_colors", "good_pec_vel", "good_mask"
  , "full_embedding", "full_mags", "full_colors", "full_pec_vel", "full_mask"
  , "preds", "good_corr_mags" ]

/-- The local variables assigned anywhere in the body of
`_evaluate_salt_hubble_residuals` (transcribed from lines 1227-1280). -/
def evaluate_salt_hubble_residuals_locals : List String :=
  [ "self", "MB", "alpha", "beta", "intrinsic_dispersion"
  , "peculiar_velocity_uncertainty"
  , "mb", "x0_err", "mb_err", "x1_err", "color_err"
  , "cov_mb_x1", "cov_color_mb", "cov_color_x1"
  , "residuals", "residual_uncertainties" ]

/-! ## Attribute assignments of `ManifoldTwinsAnalysis`

For every method of the class, the list of `self.<name> = ...` targets in
its body (transcribed from the source).  Methods that never assign an
attribute are listed with `[]`. -/

def init_assigns : List String :=
  [ "settings", "dataset"
  , "attrition_enough_spectra", "attrition_salt_daymax"
  , "attrition_range", "attrition_usable"
  , "wave", "flux", "fluxerr", "raw_spectra", "spectra", "center_mask"
  , "helio_redshifts", "redshifts", "redshift_errs"
  , "targets", "target_map"
  , "salt_fits", "salt_x1", "salt_colors", "salt_phases"
  , "train_mask", "dataset_hash" ]

def model_maximum_spectra_assigns : List String :=
  [ "maximum_hash", "maximum_result", "maximum_flux", "maximum_fluxerr" ]

def read_between_the_lines_assigns : List String :=
  [ "rbtl_color_law", "rbtl_hash" ]

def parse_rbtl_result_assigns : List String :=
  [ "rbtl_result", "rbtl_colors", "rbtl_mags", "mean_flux"
  , "scale_flux", "scale_fluxerr" ]

def build_masks_assigns : List String :=
  [ "maximum_uncertainty_fraction", "uncertainty_mask", "redshift_color_mask" ]

def generate_embedding_assigns : List String :=
  [ "isomap", "isomap_diffs", "embedding" ]

def calculate_spectral_indicators_assigns : List String :=
  [ "spectral_indicators" ]

def fit_gp_assigns : List String :=
  [ "gp_hyperparameters", "corr_mags", "corr_vars"
  , "gp_hyperparameter_covariance" ]

def apply_gp_standardization_assigns : List String :=
  [ "gp_hyperparameters", "corr_mags" ]

def load_host_data_assigns : List String :=
  [ "host_mask", "host_data" ]

def plot_twin_pairings_assigns : List String :=
  [ "twins_rms", "twins_nmad" ]

def calculate_salt_hubble_residuals_assigns : List String :=
  [ "salt_mask", "good_salt_mask"
  , "salt_MB", "salt_alpha", "salt_beta", "salt_intrinsic_dispersion"
  , "salt_wrms", "salt_hr", "salt_hr_uncertainties"
  , "salt_hr_raw_uncertainties", "salt_hr_raw" ]

/-- Every (method, attribute-assignment footprint) pair of
`ManifoldTwinsAnalysis`.  The remaining methods (`_check_spectrum`,
`read_meta`, `print_verbose`, `_build_gp`, `_predict_gp`,
`_predict_gp_oos`, `get_peculiar_velocity_uncertainty`, `get_mags`,
`_calculate_gp_residuals`, `_calculate_gp_dispersion`, `predict_gp`,
`plot_gp`, `plot_host_variable`, `plot_host`, `plot_distances`,
`plot_twin_distances`, `_evaluate_salt_hubble_residuals`, `scatter`,
`do_component_blondin_plot`, `do_blondin_plot`, `do_blondin_plot_3d`)
assign no `self.` attribute at all. -/
def allMethodAssigns : List (String × List String) :=
  [ ("__init__", init_assigns)
  , ("model_maximum_spectra", model_maximum_spectra_assigns)
  , ("read_between_the_lines", read_between_the_lines_assigns)
  , ("_parse_rbtl_result", parse_rbtl_result_assigns)
  , ("build_masks", build_masks_assigns)
  , ("generate_embedding", generate_embedding_assigns)
  , ("calculate_spectral_indicators", calculate_spectral_indicators_assigns)
  , ("fit_gp", fit_gp_assigns)
  , ("apply_gp_standardization", apply_gp_standardization_assigns)
  , ("load_host_data", load_host_data_assigns)
  , ("plot_twin_pairings", plot_twin_pairings_assigns)
  , ("calculate_salt_hubble_residuals", calculate_salt_hubble_residuals_assigns) ]

/-- All attribute names any method of the class ever assigns. -/
def classAssignedAttrs : List String :=
  (allMethodAssigns.map Prod.snd).flatten

/-! ## `get_mags` (lines 678-706) -/

/-- Reading a sequence of `self.<name>` attributes in order: the first one
absent from the set of assigned attributes raises `AttributeError`. -/
def readAttrs (assigned : List String) : List String → Except PyError Unit
  | [] => .ok ()
  | a :: rest =>
    if a ∈ assigned then readAttrs assigned rest
    else .error (.attributeError a)

/-- The `self.` attributes `get_mags` reads, in evaluation order, for each
`kind` / `full` combination; `none` when the trailing `else` branch raises
`ManifoldTwinsException` (in which case no attribute is read).

Order transcribed from lines 678-706: the magnitudes and colors of the
selected branch, the two mask attributes of the selected branch, then
`self.redshifts` (inside `get_peculiar_velocity_uncertainty`) and
`self.embedding`. -/
def get_mags_reads (kind : String) (full : Bool) : Option (List String) :=
  if kind = "rbtl" then
    some (["rbtl_mags", "rbtl_colors"]
      ++ (if full then ["mag_mask", "interp_mask"]
          else ["good_mag_mask", "interp_mask"])
      ++ ["redshifts", "embedding"])
  else if kind = "salt" ∨ kind = "salt_raw" then
    some ([(if kind = "salt" then "salt_hr" else "salt_hr_raw"), "salt_colors"]
      ++ (if full then ["salt_mask", "interp_mask"]
          else ["good_salt_mask", "interp_mask"])
      ++ ["redshifts", "embedding"])
  else none

/-- `get_mags`, reduced to its attribute-read / raise behaviour: the state
is the set of attributes assigned so far. -/
def get_mags (assigned : List String) (kind : String) (full : Bool) :
    Except PyError Unit :=
  match get_mags_reads kind full with
  | none => .error (.manifoldTwinsException ("Unknown kind " ++ kind ++ "!"))
  | some reads => readAttrs assigned reads

/-- `fit_gp` (lines 724-801), reduced to the operations that can raise one
of the modelled errors, in program order: `get_mags(kind)`, the
hyperparameter fit (pure numerics, cannot raise a name/attribute error),
`get_mags(kind, full=True)`, the out-of-sample prediction, then the
statement `self.corr_mags = fill_mask(full_mags - preds, full_mask)`
whose name `fill_mask` is resolved against the locals and globals. -/
def fit_gp (assigned : List String) (kind : String) : Except PyError Unit := do
  _ ← get_mags assigned kind false
  _ ← get_mags assigned kind true
  _ ← resolveName fit_gp_locals "fill_mask"
  .ok ()

/-- `apply_gp_standardization` (lines 803-845), reduced the same way.
(With `hyperparameters=None` the dispersion fit calls
`_calculate_gp_residuals`, which itself calls `get_mags(kind)` first;
either way `get_mags(kind)` runs before the `fill_mask` statement.) -/
def apply_gp_standardization (assigned : List String) (kind : String) :
    Except PyError Unit := do
  _ ← get_mags assigned kind false
  _ ← get_mags assigned kind true
  _ ← resolveName apply_gp_standardization_locals "fill_mask"
  .ok ()

/-- The statement `mb_err = frac_to_mag(x0_err / self.salt_fits['x0'].data)`
of `_evaluate_salt_hubble_residuals` (line 1254), reduced to the resolution
of the name `frac_to_mag`. -/
def evaluate_salt_frac_to_mag_call : Except PyError Unit :=
  resolveName evaluate_salt_hubble_residuals_locals "frac_to_mag"

/-- Is the outcome an `AttributeError`? -/
def isAttributeError : Except PyError Unit → Bool
  | .error (.attributeError _) => true
  | _ => false

/-! ## Read-between-the-lines result parsing and blinding
(`read_between_the_lines`, lines 346-416, and `_parse_rbtl_result`,
lines 418-434) -/

/-- A numpy float that may hold the missing marker `np.nan`.  `nan`
compares unequal to everything (including itself) and fails every
ordering comparison. -/
inductive MagValue where
  | nan
  | val (q : ℚ)
  deriving DecidableEq, Repr

/-- Python `==` on two such floats: `nan` makes every comparison `False`. -/
def magEqB : MagValue → MagValue → Bool
  | .val a, .val b => a == b
  | _, _ => false

/-- Python `<` on two such floats: `nan` makes every comparison `False`. -/
def magLtB : MagValue → MagValue → Bool
  | .val a, .val b => decide (a < b)
  | _, _ => false

/-- The named arrays of a read-between-the-lines Stan optimization result
that `_parse_rbtl_result` reads. -/
structure RbtlResult where
  colors : List ℚ
  magnitudes : List ℚ
  mean_flux : List ℚ
  model_scales : List ℚ
  deriving DecidableEq, Repr

/-- The attributes `_parse_rbtl_result` assigns from the result. -/
structure RbtlParsed where
  rbtl_colors : List ℚ
  rbtl_mags : List MagValue
  mean_flux : List ℚ
  scale_flux : List (List ℚ)
  scale_fluxerr : List (List ℚ)
  deriving DecidableEq, Repr

/-- `self.train_mask` (lines 142-144): targets whose `idr.subset` metadata
is anything other than `"validation"`. -/
def train_mask_of (subsets : List String) : List Bool :=
  subsets.map (fun s => s != "validation")

/-- `_parse_rbtl_result` (lines 418-434): store colors, magnitudes and the
mean flux from the result; when the analysis is blinded, immediately
overwrite the magnitude of every non-training (validation) target with
`np.nan`, inside this same function, before it returns; finally divide the
maximum-light flux and its uncertainty by the per-target model scales.
(Lean's `q / 0 = 0` stands in for numpy's `inf` there; the model scales of
a real fit are nonzero and no claim touches that case.) -/
def parse_rbtl_result (blinded : Bool) (tmask : List Bool)
    (maximum_flux maximum_fluxerr : List (List ℚ)) (result : RbtlResult) :
    RbtlParsed :=
  let mags := result.magnitudes.map MagValue.val
  { rbtl_colors := result.colors
  , rbtl_mags :=
      if blinded then
        List.zipWith (fun t m => if t then m else MagValue.nan) tmask mags
      else mags
  , mean_flux := result.mean_flux
  , scale_flux :=
      List.zipWith (fun row s => row.map (· / s)) maximum_flux
        result.model_scales
  , scale_fluxerr :=
      List.zipWith (fun row s => row.map (· / s)) maximum_fluxerr
        result.model_scales }

/-- The result `read_between_the_lines` hands to `_parse_rbtl_result`:
the cached result when `use_cache` is true and the cache holds one,
otherwise the freshly optimized result (lines 374-416). -/
def rbtl_source (use_cache : Bool) (cache : Option RbtlResult)
    (optimize : RbtlResult) : RbtlResult :=
  match (if use_cache then cache else none) with
  | some cache_result => cache_result
  | none => optimize

/-- `read_between_the_lines` (lines 346-416), reduced to the dataflow into
the parsed state: both the cache-hit path and the fresh-optimization path
feed their result through `_parse_rbtl_result` and return immediately
after. -/
def read_between_the_lines (use_cache : Bool) (cache : Option RbtlResult)
    (optimize : RbtlResult) (blinded : Bool) (tmask : List Bool)
    (maximum_flux maximum_fluxerr : List (List ℚ)) : RbtlParsed :=
  parse_rbtl_result blinded tmask maximum_flux maximum_fluxerr
    (rbtl_source use_cache cache optimize)

/-! ## Cache keys and `model_maximum_spectra` control flow
(`__init__` lines 146-157, `model_maximum_spectra` lines 225-344) -/

/-- The configuration parameters entering the two cache-key formulas, each
held as the string Python's `str()` renders it to (`str` is injective on
each parameter's runtime type, so distinct parameter values give distinct
field strings). -/
structure AnalysisSettings where
  idr : String
  phase_range : String
  bin_velocity : String
  bin_min_wavelength : String
  bin_max_wavelength : String
  s2n_cut_min_wavelength : String
  s2n_cut_max_wavelength : String
  s2n_cut_threshold : String
  maximum_num_phase_coefficients : String
  deriving DecidableEq, Repr

/-- The nine parameter strings in hash order (the first eight enter the
dataset hash, the ninth enters the maximum-light hash). -/
def settingsFields (s : AnalysisSettings) : List String :=
  [ s.idr, s.phase_range, s.bin_velocity, s.bin_min_wavelength
  , s.bin_max_wavelength, s.s2n_cut_min_wavelength
  , s.s2n_cut_max_wavelength, s.s2n_cut_threshold
  , s.maximum_num_phase_coefficients ]

/-- The `hash_info` string of `__init__` (lines 147-156). -/
def dataset_hash_info (s : AnalysisSettings) : String :=
  s.idr
    ++ ";" ++ s.phase_range
    ++ ";" ++ s.bin_velocity
    ++ ";" ++ s.bin_min_wavelength
    ++ ";" ++ s.bin_max_wavelength
    ++ ";" ++ s.s2n_cut_min_wavelength
    ++ ";" ++ s.s2n_cut_max_wavelength
    ++ ";" ++ s.s2n_cut_threshold

/-- `self.dataset_hash` (line 157); the digest function is abstract. -/
def dataset_hash (md5 : String → String) (s : AnalysisSettings) : String :=
  md5 (dataset_hash_info s)

/-- The `hash_info` string of `model_maximum_spectra` (lines 251-255). -/
def maximum_hash_info (dhash model_hash ncoef : String) : String :=
  dhash ++ ";" ++ model_hash ++ ";" ++ ncoef

/-- `self.maximum_hash` (line 256). -/
def maximum_hash (md5 : String → String) (model_hash : String)
    (s : AnalysisSettings) : String :=
  md5 (maximum_hash_info (dataset_hash md5 s) model_hash
    s.maximum_num_phase_coefficients)

/-- A maximum-light Stan optimization result: the two named output arrays
`model_maximum_spectra` keeps. -/
structure StanResult where
  maximum_flux : List (List ℚ)
  maximum_fluxerr : List (List ℚ)
  deriving DecidableEq, Repr

/-- The on-disk Stan result cache, as a key-value store
(`utils.load_stan_result` / `utils.save_stan_result`). -/
def StanCache := List (String × StanResult)

/-- `utils.load_stan_result(hash)`: `None` on a miss (or a corrupt read). -/
def cache_load (cache : StanCache) (h : String) : Option StanResult :=
  List.lookup h cache

/-- `utils.save_stan_result(hash, result)`. -/
def cache_save (cache : StanCache) (h : String) (r : StanResult) :
    StanCache :=
  (h, r) :: cache

/-- `model_maximum_spectra` (lines 225-344), reduced to its control flow:
compute `maximum_hash`; when `use_cache` is true and the cache holds a
result under it, return that result without any further check or work;
otherwise raise on an odd phase-coefficient count (this happens before the
phase-coefficient matrix or any model array is allocated); otherwise run
the optimizer and persist its result under the hash.  The returned `Bool`
records whether the optimizer ran; `optimize` abstracts the Stan
minimization, a pure function of the (fixed) data. -/
def model_maximum_spectra (md5 : String → String)
    (dhash model_hash : String) (num_phase_coefficients : ℕ)
    (use_cache : Bool) (cache : StanCache) (optimize : StanResult) :
    Except String (StanResult × Bool × StanCache) :=
  let mhash := md5 (maximum_hash_info dhash model_hash
    (toString num_phase_coefficients))
  match (if use_cache then cache_load cache mhash else none) with
  | some cache_result => .ok (cache_result, false, cache)
  | none =>
      if num_phase_coefficients % 2 ≠ 0 then
        .error "ERROR: Must have an even number of phase coefficients."
      else
        .ok (optimize, true, cache_save cache mhash optimize)

/-! ## Per-target center-mask construction (`__init__`, lines 54-122) -/

/-- What `_check_spectrum` (lines 160-183) and the center-mask loop read
of one spectrum in the phase range: its phase and its signal-to-noise in
the configured cut window. -/
structure SpectrumData where
  phase : ℚ
  s2n : ℚ
  deriving DecidableEq, Repr

/-- One target as the `__init__` loop sees it: its raw spectrum count, its
SALT `t0` uncertainty, and its spectra inside
`[-phase_range, phase_range]` (the result of `get_spectra_in_range`). -/
structure TargetData where
  num_spectra : ℕ
  daymax_err : ℚ
  range_spectra : List SpectrumData
  deriving DecidableEq, Repr

/-- `_check_spectrum` (lines 160-183): a spectrum is usable unless its
signal-to-noise is below the configured threshold. -/
def check_spectrum (s2n_cut_threshold : ℚ) (s : SpectrumData) : Bool :=
  !(decide (s.s2n < s2n_cut_threshold))

/-- The `used_phases` array collected for one target (lines 82-90): the
phases of its in-range spectra passing `_check_spectrum`, in order. -/
def used_phases (s2n_cut_threshold : ℚ) (specs : List SpectrumData) :
    List ℚ :=
  (specs.filter (check_spectrum s2n_cut_threshold)).map (fun s => s.phase)

/-- `np.argmin`: the first index attaining the minimum (0 on an empty
array, where numpy raises instead; every use below is on a nonempty
array). -/
def np_argmin : List ℚ → ℕ
  | [] => 0
  | [_] => 0
  | x :: y :: xs =>
      let j := np_argmin (y :: xs)
      if x ≤ (y :: xs).getD j 0 then 0 else j + 1

/-- The `target_center_mask` block appended for one target (lines 91-97):
nothing when no usable spectrum survived; otherwise an all-`False` vector
with `True` at `np.argmin(np.abs(used_phases))`. -/
def target_center_mask (s2n_cut_threshold : ℚ) (t : TargetData) :
    List Bool :=
  let phases := used_phases s2n_cut_threshold t.range_spectra
  if phases.isEmpty then []
  else (List.replicate phases.length false).set
    (np_argmin (phases.map (fun p => |p|))) true

/-- The two quality filters a target must survive to reach the center-mask
block (lines 55-74): at least 5 spectra, and SALT `t0_err` at most 1.0
day. -/
def survives_quality (t : TargetData) : Bool :=
  decide (5 ≤ t.num_spectra) && !(decide ((1 : ℚ) < t.daymax_err))

/-- `self.center_mask` (lines 47-122): the concatenation, over the targets
surviving the quality filters, of each target's center-mask block. -/
def center_mask (s2n_cut_threshold : ℚ) (targets : List TargetData) :
    List Bool :=
  (targets.filter survives_quality).foldl
    (fun acc t => acc ++ target_center_mask s2n_cut_threshold t) []

/-! ## Phase-coefficient matrix (`model_maximum_spectra`, lines 281-302) -/

/-- A write `phase_coefficients[i, idx] = w` into a row of length
`row.length`: numpy wraps a negative index by adding the length
(`List.set` ignores a remaining out-of-range index, where numpy raises an
`IndexError`; every theorem below stays inside the in-range regime
`|phase| < phase_range`, where all writes are in range). -/
def np_set (row : List ℚ) (idx : ℤ) (w : ℚ) : List ℚ :=
  if idx < 0 then row.set (row.length - idx.natAbs) w
  else row.set idx.toNat w

/-- One row of the `phase_coefficients` matrix (lines 281-302): with
`phase_scale = |(num_phase_coefficients / 2) * (phase / phase_range)|`,
`full_bins = int(floor(phase_scale))` and
`remainder = phase_scale - full_bins`, the loop writes weight 1 at the
bins for `j = 0 .. full_bins - 1` and weight `remainder` at the bin for
`j = full_bins`, where the bin for `j` is
`num_phase_coefficients // 2 + j` for positive phase and
`num_phase_coefficients // 2 - 1 - j` otherwise. -/
def phase_coefficient_row (num_phase_coefficients : ℕ)
    (phase_range phase : ℚ) : List ℚ :=
  let phase_scale : ℚ :=
    |((num_phase_coefficients : ℚ) / 2) * (phase / phase_range)|
  let full_bins : ℕ := ⌊phase_scale⌋.toNat
  let remainder : ℚ := phase_scale - (full_bins : ℚ)
  (List.range (full_bins + 1)).foldl
    (fun row (j : ℕ) =>
      np_set row
        (if 0 < phase then (num_phase_coefficients : ℤ) / 2 + (j : ℤ)
         else (num_phase_coefficients : ℤ) / 2 - 1 - (j : ℤ))
        (if j = full_bins then remainder else 1))
    (List.replicate num_phase_coefficients 0)

/-- The claim's property of one row: at most two nonzero entries, lying in
adjacent columns — equivalently, any two distinct nonzero positions are
adjacent (out-of-range positions read as the default 0, so a nonzero read
is always an in-range entry). -/
def at_most_two_adjacent (l : List ℚ) : Prop :=
  ∀ i k : ℕ, i < k → l.getD i 0 ≠ 0 → l.getD k 0 ≠ 0 → k = i + 1

/-- The closed form the row construction actually produces (sharing the
source's `phase_scale` / `full_bins` / `remainder` quantities): the
fractional `remainder` at the outermost touched bin
(`full_bins` steps from the central bin, towards the spectrum's side),
weight 1 at every bin strictly between the central bin and that outermost
bin (inclusive of the central bin), and 0 elsewhere. -/
def phase_row_closed_form (num_phase_coefficients : ℕ)
    (phase_range phase : ℚ) (k : ℕ) : ℚ :=
  let phase_scale : ℚ :=
    |((num_phase_coefficients : ℚ) / 2) * (phase / phase_range)|
  let full_bins : ℕ := ⌊phase_scale⌋.toNat
  let remainder : ℚ := phase_scale - (full_bins : ℚ)
  let c : ℤ :=
    if 0 < phase then (num_phase_coefficients : ℤ) / 2
    else (num_phase_coefficients : ℤ) / 2 - 1
  let dir : ℤ := if 0 < phase then 1 else -1
  if (k : ℤ) = c + dir * (full_bins : ℤ) then remainder
  else if (List.range full_bins).any (fun j => (k : ℤ) == c + dir * (j : ℤ))
    then 1
  else 0

/-! ## Out-of-sample GP prediction (`_predict_gp_oos`, lines 571-666)

The GP library call `_predict_gp(pred_x, pred_color, cond_x, cond_y,
cond_yerr, cond_color, ...)` is kept abstract as a function `predict` of
one query point and the four conditioning arrays; the batched call on
`x[~condition_mask]` is its pointwise application to each query (a GP
posterior mean/variance at a batch of points is computed per point from
the same conditioning data).  Rows are carried in four parallel lists,
as in the source; `α` is the type of one embedding coordinate row and
`G` the type of one group label.  The scalar-`color` broadcast of lines
589-590 expands a scalar to a constant list before this function's body
runs, so `color` is taken as a list; the `return_var` branch carries the
variances through the same index plumbing as the predictions and is
elided. -/

/-- numpy boolean indexing `l[m]`: the elements of `l` at the `true`
positions of `m`, in order. -/
def mask_select {α : Type} : List α → List Bool → List α
  | [], _ => []
  | _, [] => []
  | a :: as, b :: bs =>
      if b then a :: mask_select as bs else mask_select as bs

/-- The scatter
`all_preds[condition_mask] = cond_preds; all_preds[~condition_mask] = other_preds`
(lines 652-661): position `i` takes the next element of `cond_preds` when
`m` is `true` there and the next element of `other_preds` otherwise. -/
def scatter_by_mask : List Bool → List ℚ → List ℚ → List ℚ
  | [], _, _ => []
  | b :: bs, cond, other =>
      if b then cond.headD 0 :: scatter_by_mask bs cond.tail other
      else other.headD 0 :: scatter_by_mask bs cond other.tail

/-- How many of the first `i` mask entries are `true`: the position of
full-list index `i` inside the mask-selected sublist. -/
def count_true_before (m : List Bool) (i : ℕ) : ℕ :=
  (m.take i).count true

/-- `_predict_gp_oos` (lines 571-666).  Conditioning data are the rows
selected by `condition_mask` (all rows when it is `None`).  For each index
`idx` of the conditioning sample, the prediction at that point conditions
on the rows at `~(groups[idx] == groups)` when a groups array is supplied
(`groups` is aligned with the conditioning sample), and on
`np.delete(..., idx)` otherwise.  Rows outside the conditioning sample are
predicted in one call conditioned on the whole conditioning sample, and
the two prediction vectors are scattered back into full-sample order. -/
def predict_gp_oos {α G : Type} [Inhabited α] [Inhabited G] [DecidableEq G]
    (predict : α → ℚ → List α → List ℚ → List ℚ → List ℚ → ℚ)
    (x : List α) (y yerr color : List ℚ)
    (condition_mask : Option (List Bool)) (groups : Option (List G)) :
    List ℚ :=
  let cond_x := match condition_mask with
    | none => x | some m => mask_select x m
  let cond_y := match condition_mask with
    | none => y | some m => mask_select y m
  let cond_yerr := match condition_mask with
    | none => yerr | some m => mask_select yerr m
  let cond_color := match condition_mask with
    | none => color | some m => mask_select color m
  let cond_preds := (List.range cond_x.length).map (fun idx =>
    match groups with
    | some g =>
        let keep := g.map (fun gj => !(g.getD idx default == gj))
        predict (cond_x.getD idx default) (cond_color.getD idx 0)
          (mask_select cond_x keep) (mask_select cond_y keep)
          (mask_select cond_yerr keep) (mask_select cond_color keep)
    | none =>
        predict (cond_x.getD idx default) (cond_color.getD idx 0)
          (cond_x.eraseIdx idx) (cond_y.eraseIdx idx)
          (cond_yerr.eraseIdx idx) (cond_color.eraseIdx idx))
  match condition_mask with
  | none => cond_preds
  | some m =>
      let not_m := m.map (!·)
      let other_preds :=
        List.zipWith
          (fun px pc => predict px pc cond_x cond_y cond_yerr cond_color)
          (mask_select x not_m) (mask_select color not_m)
      scatter_by_mask m cond_preds other_preds

/-- The claim's description of `_predict_gp_oos`, per full-sample
position: a row inside the conditioning subset (say the `k`-th row of that
subset) is predicted from the conditioning subset with — when a groups
array is supplied — every row sharing the `k`-th row's group label
removed, and otherwise with exactly the `k`-th row removed; a row outside
the conditioning subset is predicted once, from the entire conditioning
subset. -/
def predict_gp_oos_spec {α G : Type} [Inhabited α] [Inhabited G]
    [DecidableEq G]
    (predict : α → ℚ → List α → List ℚ → List ℚ → List ℚ → ℚ)
    (x : List α) (y yerr color : List ℚ)
    (condition_mask : Option (List Bool)) (groups : Option (List G)) :
    List ℚ :=
  let cond_x := match condition_mask with
    | none => x | some m => mask_select x m
  let cond_y := match condition_mask with
    | none => y | some m => mask_select y m
  let cond_yerr := match condition_mask with
    | none => yerr | some m => mask_select yerr m
  let cond_color := match condition_mask with
    | none => color | some m => mask_select color m
  let oos_pred := fun (k : ℕ) =>
    match groups with
    | some g =>
        let keep := g.map (fun gj => !(g.getD k default == gj))
        predict (cond_x.getD k default) (cond_color.getD k 0)
          (mask_select cond_x keep) (mask_select cond_y keep)
          (mask_select cond_yerr keep) (mask_select cond_color keep)
    | none =>
        predict (cond_x.getD k default) (cond_color.getD k 0)
          (cond_x.eraseIdx k) (cond_y.eraseIdx k)
          (cond_yerr.eraseIdx k) (cond_color.eraseIdx k)
  (List.range x.length).map (fun i =>
    match condition_mask with
    | none => oos_pred i
    | some m =>
        if m.getD i false then oos_pred (count_true_before m i)
        else predict (x.getD i default) (color.getD i 0)
          cond_x cond_y cond_yerr cond_color)

/-! ## Helper lemmas -/

theorem except_bind_error {ε α β : Type} (e : ε) (f : α → Except ε β) :
    (Except.error e >>= f) = Except.error e := rfl

theorem getD_map {α β : Type} (f : α → β) (l : List α) (i : ℕ) (d₁ : α)
    (d₂ : β) (h : i < l.length) :
    (l.map f).getD i d₂ = f (l.getD i d₁) := by
  induction l generalizing i with
  | nil => simp at h
  | cons a as ih =>
      cases i with
      | zero => rfl
      | succ j => exact ih j (by simpa using h)

theorem getD_zipWith {α β γ : Type} (f : α → β → γ) (a : List α)
    (b : List β) (i : ℕ) (d₁ : α) (d₂ : β) (d₃ : γ) (ha : i < a.length)
    (hb : i < b.length) :
    (List.zipWith f a b).getD i d₃ = f (a.getD i d₁) (b.getD i d₂) := by
  induction a generalizing b i with
  | nil => simp at ha
  | cons x xs ih =>
      cases b with
      | nil => simp at hb
      | cons y ys =>
          cases i with
          | zero => rfl
          | succ j =>
              exact ih ys j (by simpa using ha) (by simpa using hb)

theorem readAttrs_missing (S : List String) (reads : List String)
    (h : ∃ a ∈ reads, a ∉ S) :
    isAttributeError (readAttrs S reads) = true := by
  induction reads with
  | nil => simp at h
  | cons b rest ih =>
      obtain ⟨a, ha, hna⟩ := h
      by_cases hb : b ∈ S
      · rw [readAttrs, if_pos hb]
        apply ih
        rcases List.mem_cons.mp ha with h | h
        · exact absurd hb (h ▸ hna)
        · exact ⟨a, h, hna⟩
      · rw [readAttrs, if_neg hb]
        rfl

theorem get_mags_unknown (assigned : List String) (kind : String)
    (full : Bool) (h1 : kind ≠ "rbtl") (h2 : kind ≠ "salt")
    (h3 : kind ≠ "salt_raw") :
    get_mags assigned kind full
      = .error (.manifoldTwinsException ("Unknown kind " ++ kind ++ "!")) := by
  have : get_mags_reads kind full = none := by
    unfold get_mags_reads
    rw [if_neg h1, if_neg (by simp [h2, h3])]
  rw [get_mags, this]

theorem get_mags_attr_error (S : List String)
    (hS : ∀ a ∈ S, a ∈ classAssignedAttrs) (kind : String)
    (hkind : kind = "rbtl" ∨ kind = "salt" ∨ kind = "salt_raw")
    (full : Bool) :
    isAttributeError (get_mags S kind full) = true := by
  have hnotin : "interp_mask" ∉ S := by
    intro hmem
    exact absurd (hS _ hmem) (by decide)
  rcases hkind with h | h | h <;> subst h <;> cases full <;>
    · rw [get_mags]
      refine readAttrs_missing _ _ ⟨"interp_mask", ?_, hnotin⟩
      simp [get_mags_reads]

theorem get_mags_never_ok (S : List String)
    (hS : ∀ a ∈ S, a ∈ classAssignedAttrs) (kind : String) (full : Bool) :
    ∃ e, get_mags S kind full = .error e := by
  by_cases h1 : kind = "rbtl"
  case pos =>
    have := get_mags_attr_error S hS kind (Or.inl h1) full
    cases hmag : get_mags S kind full with
    | ok v => rw [hmag] at this; simp [isAttributeError] at this
    | error e => exact ⟨e, rfl⟩
  all_goals by_cases h2 : kind = "salt"
  case pos =>
    have := get_mags_attr_error S hS kind (Or.inr (Or.inl h2)) full
    cases hmag : get_mags S kind full with
    | ok v => rw [hmag] at this; simp [isAttributeError] at this
    | error e => exact ⟨e, rfl⟩
  all_goals by_cases h3 : kind = "salt_raw"
  case pos =>
    have := get_mags_attr_error S hS kind (Or.inr (Or.inr h3)) full
    cases hmag : get_mags S kind full with
    | ok v => rw [hmag] at this; simp [isAttributeError] at this
    | error e => exact ⟨e, rfl⟩
  case neg =>
    exact ⟨_, get_mags_unknown S kind full h1 h2 h3⟩

/-! ## Claim theorems -/

/-- Claim C8: calling `get_mags` with any kind other than `"rbtl"`,
`"salt"`, or `"salt_raw"` raises a `ManifoldTwinsException` at the call
site, before any magnitudes, colors, masks, or embedding coordinates are
read — the outcome is this exception whatever attributes have been
assigned. -/
theorem get_mags_unknown_kind_raises (assigned : List String)
    (kind : String) (full : Bool) (h1 : kind ≠ "rbtl") (h2 : kind ≠ "salt")
    (h3 : kind ≠ "salt_raw") :
    get_mags assigned kind full
      = .error (.manifoldTwinsException ("Unknown kind " ++ kind ++ "!")) :=
  get_mags_unknown assigned kind full h1 h2 h3

/-- Witness for C8 at the concrete kind `"salt2"` with no attribute
assigned at all. -/
theorem get_mags_unknown_kind_raises_witness :
    get_mags [] "salt2" false
      = .error (.manifoldTwinsException ("Unknown kind " ++ "salt2" ++ "!")) :=
  get_mags_unknown_kind_raises [] "salt2" false (by decide) (by decide)
    (by decide)

/-- Claim C10: the corrected-magnitude assignments of `fit_gp` (line 759)
and `apply_gp_standardization` (line 841) reference the unqualified name
`fill_mask`, and `_evaluate_salt_hubble_residuals` (line 1254) the
unqualified name `frac_to_mag`; neither is a local of its function nor a
module global (the module binds only `utils`), so each resolves to a
`NameError`. -/
theorem fill_mask_frac_to_mag_name_errors :
    resolveName fit_gp_locals "fill_mask"
        = .error (.nameError "fill_mask")
  ∧ resolveName apply_gp_standardization_locals "fill_mask"
        = .error (.nameError "fill_mask")
  ∧ evaluate_salt_frac_to_mag_call = .error (.nameError "frac_to_mag")
  ∧ "utils" ∈ moduleGlobals
  ∧ "fill_mask" ∉ moduleGlobals
  ∧ "frac_to_mag" ∉ moduleGlobals := by
  refine ⟨rfl, rfl, rfl, by decide, by decide, by decide⟩

/-- Counterexample to C9's parenthetical: `build_masks` does not assign
only `uncertainty_mask` and `redshift_color_mask` — it also assigns
`maximum_uncertainty_fraction` (line 452). -/
theorem build_masks_assigns_third_attribute :
    "maximum_uncertainty_fraction" ∈ build_masks_assigns
  ∧ ¬ (∀ a ∈ build_masks_assigns,
        a = "uncertainty_mask" ∨ a = "redshift_color_mask") := by
  constructor
  · decide
  · intro h
    rcases h "maximum_uncertainty_fraction" (by decide) with h | h <;>
      simp at h

/-- Claim C9 (amended): every call to `get_mags` with a valid kind raises
`AttributeError` after any sequence of `ManifoldTwinsAnalysis` methods has
run (any set of assigned attributes drawn from the class's full assignment
footprint): for `kind="rbtl"` it reads `self.mag_mask` (or
`self.good_mag_mask`) and `self.interp_mask`, and no method of the class
ever assigns `mag_mask`, `good_mag_mask`, or `interp_mask` — `build_masks`
assigns only `maximum_uncertainty_fraction`, `uncertainty_mask` and
`redshift_color_mask`; consequently `fit_gp` and
`apply_gp_standardization` cannot return normally. -/
theorem get_mags_always_attribute_error (S : List String)
    (hS : ∀ a ∈ S, a ∈ classAssignedAttrs) (kind : String)
    (hkind : kind = "rbtl" ∨ kind = "salt" ∨ kind = "salt_raw")
    (full : Bool) :
    isAttributeError (get_mags S kind full) = true
  ∧ (∀ a ∈ build_masks_assigns,
      a = "maximum_uncertainty_fraction" ∨ a = "uncertainty_mask"
        ∨ a = "redshift_color_mask")
  ∧ "mag_mask" ∉ classAssignedAttrs
  ∧ "good_mag_mask" ∉ classAssignedAttrs
  ∧ "interp_mask" ∉ classAssignedAttrs
  ∧ (∀ kind2, ∃ e, fit_gp S kind2 = .error e)
  ∧ (∀ kind2, ∃ e, apply_gp_standardization S kind2 = .error e) := by
  refine ⟨get_mags_attr_error S hS kind hkind full, by decide, by decide,
    by decide, by decide, ?_, ?_⟩
  · intro kind2
    obtain ⟨e, he⟩ := get_mags_never_ok S hS kind2 false
    exact ⟨e, by rw [fit_gp, he, except_bind_error]⟩
  · intro kind2
    obtain ⟨e, he⟩ := get_mags_never_ok S hS kind2 false
    exact ⟨e, by rw [apply_gp_standardization, he, except_bind_error]⟩

/-- Witness for the amended C9: with every attribute the class can ever
assign present, `get_mags "rbtl"` still raises an `AttributeError`. -/
theorem get_mags_always_attribute_error_witness :
    isAttributeError (get_mags classAssignedAttrs "rbtl" false) = true
  ∧ (∀ a ∈ build_masks_assigns,
      a = "maximum_uncertainty_fraction" ∨ a = "uncertainty_mask"
        ∨ a = "redshift_color_mask")
  ∧ "mag_mask" ∉ classAssignedAttrs
  ∧ "good_mag_mask" ∉ classAssignedAttrs
  ∧ "interp_mask" ∉ classAssignedAttrs
  ∧ (∀ kind2, ∃ e, fit_gp classAssignedAttrs kind2 = .error e)
  ∧ (∀ kind2, ∃ e,
      apply_gp_standardization classAssignedAttrs kind2 = .error e) :=
  get_mags_always_attribute_error classAssignedAttrs (fun _ h => h)
    "rbtl" (Or.inl rfl) false

/-- Claim C2: when `blinded` is true, immediately after a
read-between-the-lines result is computed and parsed — whether freshly
optimized or loaded from cache, both paths run `_parse_rbtl_result` — the
magnitude entry of every target whose subset is `"validation"` holds
`np.nan`, which fails every equality and ordering comparison, and never
the computed numeric value. -/
theorem rbtl_blinding (use_cache : Bool) (cache : Option RbtlResult)
    (optimize : RbtlResult) (subsets : List String)
    (maximum_flux maximum_fluxerr : List (List ℚ)) (i : ℕ)
    (hlen : subsets.length
      = (rbtl_source use_cache cache optimize).magnitudes.length)
    (hi : i < subsets.length)
    (hval : subsets.getD i "" = "validation") :
    (read_between_the_lines use_cache cache optimize true
        (train_mask_of subsets) maximum_flux
        maximum_fluxerr).rbtl_mags.getD i (.val 0) = .nan
  ∧ (∀ q : ℚ, (MagValue.nan : MagValue) ≠ .val q)
  ∧ (∀ v : MagValue, magEqB .nan v = false ∧ magEqB v .nan = false
      ∧ magLtB .nan v = false ∧ magLtB v .nan = false) := by
  refine ⟨?_, fun q h => MagValue.noConfusion h,
    fun v => by cases v <;> exact ⟨rfl, rfl, rfl, rfl⟩⟩
  rw [read_between_the_lines]
  set r := rbtl_source use_cache cache optimize with hr
  have hmags : (parse_rbtl_result true (train_mask_of subsets) maximum_flux
      maximum_fluxerr r).rbtl_mags
      = List.zipWith (fun t m => if t then m else MagValue.nan)
          (subsets.map (fun s => s != "validation"))
          (r.magnitudes.map MagValue.val) := by
    simp [parse_rbtl_result, train_mask_of]
  rw [hmags, getD_zipWith _ _ _ i false (.val 0) _ (by simpa using hi)
    (by simp [← hlen, hi])]
  rw [getD_map (fun s => s != "validation") subsets i "" false hi, hval]
  simp

/-- Witness for C2: a single validation target, cache miss path. -/
theorem rbtl_blinding_witness :
    (read_between_the_lines false none ⟨[0], [5], [1], [1]⟩ true
        (train_mask_of ["validation"]) [[1]] [[1]]).rbtl_mags.getD 0
        (.val 0) = .nan
  ∧ (∀ q : ℚ, (MagValue.nan : MagValue) ≠ .val q)
  ∧ (∀ v : MagValue, magEqB .nan v = false ∧ magEqB v .nan = false
      ∧ magLtB .nan v = false ∧ magLtB v .nan = false) :=
  rbtl_blinding false none ⟨[0], [5], [1], [1]⟩ ["validation"] [[1]] [[1]]
    0 rfl (by decide) rfl

/-- Counterexample to C4: with `maximum_num_phase_coefficients = 3` (odd)
and a cache entry stored under the corresponding hash, the cache lookup of
`model_maximum_spectra` (lines 259-266) runs before the parity check (line
273), so the call returns the cached result and raises nothing. -/
theorem odd_coefficients_cache_hit_returns :
    3 % 2 = 1
  ∧ model_maximum_spectra id "d" "m" 3 true
      [("d;m;3", ⟨[[1]], [[2]]⟩)] ⟨[[0]], [[0]]⟩
      = .ok (⟨[[1]], [[2]]⟩, false, [("d;m;3", ⟨[[1]], [[2]]⟩)])
  ∧ ∀ msg, model_maximum_spectra id "d" "m" 3 true
      [("d;m;3", ⟨[[1]], [[2]]⟩)] ⟨[[0]], [[0]]⟩ ≠ .error msg := by
  refine ⟨rfl, rfl, ?_⟩
  intro msg h
  rw [show model_maximum_spectra id "d" "m" 3 true
      [("d;m;3", ⟨[[1]], [[2]]⟩)] ⟨[[0]], [[0]]⟩
      = .ok (⟨[[1]], [[2]]⟩, false, [("d;m;3", ⟨[[1]], [[2]]⟩)]) from rfl]
    at h
  exact Except.noConfusion h

/-- Claim C4 (amended): an odd `maximum_num_phase_coefficients` raises the
configuration error — before the phase-coefficient matrix or any model
array is allocated, and without running the optimizer — whenever the cache
is not consulted or misses; only a pre-existing cache entry under the
matching hash bypasses the check. -/
theorem odd_coefficients_error_on_cache_miss (md5 : String → String)
    (dhash model_hash : String) (n : ℕ) (use_cache : Bool)
    (cache : StanCache) (optimize : StanResult) (hodd : n % 2 = 1)
    (hmiss : use_cache = false
      ∨ cache_load cache
          (md5 (maximum_hash_info dhash model_hash (toString n))) = none) :
    model_maximum_spectra md5 dhash model_hash n use_cache cache optimize
      = .error "ERROR: Must have an even number of phase coefficients." := by
  rw [model_maximum_spectra]
  have hload : (if use_cache then
      cache_load cache
        (md5 (maximum_hash_info dhash model_hash (toString n)))
      else none) = none := by
    rcases hmiss with h | h
    · rw [h]; rfl
    · rw [h]; simp
  rw [hload]
  simp [hodd]

/-- Witness for the amended C4: odd count, cache not consulted. -/
theorem odd_coefficients_error_on_cache_miss_witness :
    model_maximum_spectra id "d" "m" 3 false [] ⟨[[0]], [[0]]⟩
      = .error "ERROR: Must have an even number of phase coefficients." :=
  odd_coefficients_error_on_cache_miss id "d" "m" 3 false [] ⟨[[0]], [[0]]⟩
    rfl (Or.inl rfl)

/-- Claim C5: if a first call to `model_maximum_spectra` with
`use_cache=True` succeeds (returning result `r₁` and leaving cache state
`cache₁`), then a second call on `cache₁` with the same inputs returns the
very same result — hence bit-identical `maximum_flux` and
`maximum_fluxerr` arrays — with the optimizer-ran flag `false` and the
cache unchanged: the entry stored under the same hash is reused verbatim
and the optimization is skipped. -/
theorem maximum_cache_idempotent (md5 : String → String)
    (dhash model_hash : String) (n : ℕ) (cache cache₁ : StanCache)
    (optimize r₁ : StanResult) (ran₁ : Bool)
    (h : model_maximum_spectra md5 dhash model_hash n true cache optimize
      = .ok (r₁, ran₁, cache₁)) :
    model_maximum_spectra md5 dhash model_hash n true cache₁ optimize
      = .ok (r₁, false, cache₁) := by
  simp only [model_maximum_spectra, if_true] at h ⊢
  cases hl : cache_load cache
      (md5 (maximum_hash_info dhash model_hash (toString n))) with
  | some r =>
      rw [hl] at h
      simp only [Except.ok.injEq, Prod.mk.injEq] at h
      obtain ⟨hr, -, hc⟩ := h
      rw [← hc, hl, hr]
  | none =>
      rw [hl] at h
      by_cases hn : n % 2 ≠ 0
      · rw [if_pos hn] at h
        exact Except.noConfusion h
      · rw [if_neg hn] at h
        simp only [Except.ok.injEq, Prod.mk.injEq] at h
        obtain ⟨hr, -, hc⟩ := h
        rw [← hc]
        rw [show cache_load
            (cache_save cache
              (md5 (maximum_hash_info dhash model_hash (toString n)))
              optimize)
            (md5 (maximum_hash_info dhash model_hash (toString n)))
            = some optimize by
          simp [cache_load, cache_save, List.lookup]]
        rw [hr]

/-- Witness for C5: an empty starting cache; the second call reuses the
entry the first call stored. -/
theorem maximum_cache_idempotent_witness :
    model_maximum_spectra id "d" "m" 2 true [("d;m;2", ⟨[[7]], [[8]]⟩)]
      ⟨[[7]], [[8]]⟩
      = .ok (⟨[[7]], [[8]]⟩, false, [("d;m;2", ⟨[[7]], [[8]]⟩)]) :=
  maximum_cache_idempotent id "d" "m" 2 [] [("d;m;2", ⟨[[7]], [[8]]⟩)]
    ⟨[[7]], [[8]]⟩ ⟨[[7]], [[8]]⟩ true rfl

theorem np_argmin_lt_length (l : List ℚ) (h : l ≠ []) :
    np_argmin l < l.length := by
  induction l with
  | nil => exact absurd rfl h
  | cons x xs ih =>
      cases xs with
      | nil => simp [np_argmin]
      | cons y ys =>
          rw [np_argmin]
          by_cases hc : x ≤ (y :: ys).getD (np_argmin (y :: ys)) 0
          · rw [if_pos hc]; simp
          · rw [if_neg hc]
            simpa [Nat.succ_lt_succ_iff] using ih (by simp)

theorem np_argmin_min (l : List ℚ) (q : ℚ) (hq : q ∈ l) :
    l.getD (np_argmin l) 0 ≤ q := by
  induction l with
  | nil => simp at hq
  | cons x xs ih =>
      cases xs with
      | nil =>
          rw [List.mem_singleton.mp hq]
          simp [np_argmin]
      | cons y ys =>
          rw [np_argmin]
          by_cases hc : x ≤ (y :: ys).getD (np_argmin (y :: ys)) 0
          · rw [if_pos hc]
            rcases List.mem_cons.mp hq with h | h
            · simp [h]
            · calc (x :: y :: ys).getD 0 0 = x := rfl
                _ ≤ (y :: ys).getD (np_argmin (y :: ys)) 0 := hc
                _ ≤ q := ih h
          · rw [if_neg hc]
            have hgd : (x :: y :: ys).getD (np_argmin (y :: ys) + 1) 0
                = (y :: ys).getD (np_argmin (y :: ys)) 0 := rfl
            rcases List.mem_cons.mp hq with h | h
            · rw [hgd, h]
              exact le_of_lt (lt_of_not_le hc)
            · rw [hgd]
              exact ih h

theorem count_true_replicate_false (n : ℕ) :
    (List.replicate n false).count true = 0 := by
  induction n with
  | zero => rfl
  | succ m ih => simp [List.replicate_succ, List.count_cons, ih]

theorem count_set_true (n k : ℕ) (h : k < n) :
    ((List.replicate n false).set k true).count true = 1 := by
  induction n generalizing k with
  | zero => simp at h
  | succ m ih =>
      cases k with
      | zero =>
          simp [List.replicate_succ, List.count_cons,
            count_true_replicate_false]
      | succ j =>
          rw [List.replicate_succ]
          show (false :: (List.replicate m false).set j true).count true = 1
          simp [List.count_cons, ih j (by simpa using h)]

theorem getD_set_true (n k : ℕ) (h : k < n) :
    ((List.replicate n false).set k true).getD k false = true := by
  induction n generalizing k with
  | zero => simp at h
  | succ m ih =>
      cases k with
      | zero => rfl
      | succ j =>
          rw [List.replicate_succ]
          show ((List.replicate m false).set j true).getD j false = true
          exact ih j (by simpa using h)

/-- Claim C7: for a target surviving the quality filters, if at least one
in-range spectrum passes `_check_spectrum` then its center-mask block has
exactly one `True`, placed at a used spectrum of minimal absolute phase;
with zero surviving usable spectra the block is empty, so no center-mask
entry is appended for that target. -/
theorem center_mask_one_center (s2n_cut_threshold : ℚ)
    (targets : List TargetData) (t : TargetData)
    (_ht : t ∈ targets.filter survives_quality) :
    (used_phases s2n_cut_threshold t.range_spectra = [] →
      target_center_mask s2n_cut_threshold t = [])
  ∧ (used_phases s2n_cut_threshold t.range_spectra ≠ [] →
      (target_center_mask s2n_cut_threshold t).count true = 1
      ∧ (target_center_mask s2n_cut_threshold t).length
          = (used_phases s2n_cut_threshold t.range_spectra).length
      ∧ ∃ i < (used_phases s2n_cut_threshold t.range_spectra).length,
          (target_center_mask s2n_cut_threshold t).getD i false = true
          ∧ ∀ q ∈ used_phases s2n_cut_threshold t.range_spectra,
              |(used_phases s2n_cut_threshold t.range_spectra).getD i 0|
                ≤ |q|) := by
  constructor
  · intro hempty
    rw [target_center_mask, if_pos (by simp [hempty])]
  · intro hne
    set ps := used_phases s2n_cut_threshold t.range_spectra with hps
    have hmask : target_center_mask s2n_cut_threshold t
        = (List.replicate ps.length false).set
            (np_argmin (ps.map (fun p => |p|))) true := by
      rw [target_center_mask, if_neg (by simp [← hps, hne])]
    have hmapne : ps.map (fun p => |p|) ≠ [] := by
      simpa using hne
    have hj : np_argmin (ps.map (fun p => |p|)) < ps.length := by
      simpa using np_argmin_lt_length _ hmapne
    refine ⟨by rw [hmask]; exact count_set_true _ _ hj, by simp [hmask],
      np_argmin (ps.map (fun p => |p|)), hj, ?_, ?_⟩
    · rw [hmask]
      exact getD_set_true _ _ hj
    · intro q hq
      have hmin := np_argmin_min (ps.map (fun p => |p|)) |q|
        (List.mem_map_of_mem _ hq)
      rwa [getD_map (fun p => |p|) ps _ 0 0 hj] at hmin

/-- Witness for C7: one surviving target with used phases `[3, -1]`; the
single `True` lands on the phase of minimal absolute value. -/
theorem center_mask_one_center_witness :
    (used_phases 1 (TargetData.mk 5 1 [⟨3, 2⟩, ⟨-1, 5⟩, ⟨2, 0⟩]).range_spectra
        = [] →
      target_center_mask 1 (TargetData.mk 5 1 [⟨3, 2⟩, ⟨-1, 5⟩, ⟨2, 0⟩]) = [])
  ∧ (used_phases 1 (TargetData.mk 5 1 [⟨3, 2⟩, ⟨-1, 5⟩, ⟨2, 0⟩]).range_spectra
        ≠ [] →
      (target_center_mask 1
          (TargetData.mk 5 1 [⟨3, 2⟩, ⟨-1, 5⟩, ⟨2, 0⟩])).count true = 1
      ∧ (target_center_mask 1
          (TargetData.mk 5 1 [⟨3, 2⟩, ⟨-1, 5⟩, ⟨2, 0⟩])).length
          = (used_phases 1
              (TargetData.mk 5 1 [⟨3, 2⟩, ⟨-1, 5⟩, ⟨2, 0⟩]).range_spectra).length
      ∧ ∃ i < (used_phases 1
            (TargetData.mk 5 1 [⟨3, 2⟩, ⟨-1, 5⟩, ⟨2, 0⟩]).range_spectra).length,
          (target_center_mask 1
              (TargetData.mk 5 1 [⟨3, 2⟩, ⟨-1, 5⟩, ⟨2, 0⟩])).getD i false
              = true
          ∧ ∀ q ∈ used_phases 1
              (TargetData.mk 5 1 [⟨3, 2⟩, ⟨-1, 5⟩, ⟨2, 0⟩]).range_spectra,
              |(used_phases 1
                  (TargetData.mk 5 1
                    [⟨3, 2⟩, ⟨-1, 5⟩, ⟨2, 0⟩]).range_spectra).getD i 0|
                ≤ |q|) :=
  center_mask_one_center 1 [TargetData.mk 5 1 [⟨3, 2⟩, ⟨-1, 5⟩, ⟨2, 0⟩]]
    (TargetData.mk 5 1 [⟨3, 2⟩, ⟨-1, 5⟩, ⟨2, 0⟩]) (by decide)

theorem getD_set_ne (l : List ℚ) (i k : ℕ) (v d : ℚ) (h : i ≠ k) :
    (l.set i v).getD k d = l.getD k d := by
  induction l generalizing i k with
  | nil => rfl
  | cons a as ih =>
      cases i with
      | zero =>
          cases k with
          | zero => exact absurd rfl h
          | succ kk => rfl
      | succ ii =>
          cases k with
          | zero => rfl
          | succ kk => exact ih ii kk (fun he => h (by rw [he]))

theorem getD_set_self (l : List ℚ) (i : ℕ) (v d : ℚ) (h : i < l.length) :
    (l.set i v).getD i d = v := by
  induction l generalizing i with
  | nil => simp at h
  | cons a as ih =>
      cases i with
      | zero => rfl
      | succ ii => exact ih ii (by simpa using h)

theorem foldl_set_length (g : ℕ → ℕ) (w : ℕ → ℚ) (init : List ℚ) (m : ℕ) :
    ((List.range m).foldl (fun row j => row.set (g j) (w j)) init).length
      = init.length := by
  induction m with
  | zero => rfl
  | succ p ih =>
      rw [List.range_succ, List.foldl_append]
      simp [ih]

theorem foldl_set_getD_not_hit (g : ℕ → ℕ) (w : ℕ → ℚ) (init : List ℚ)
    (m k : ℕ) (h : ∀ j, j < m → g j ≠ k) :
    ((List.range m).foldl (fun row j => row.set (g j) (w j)) init).getD k 0
      = init.getD k 0 := by
  induction m with
  | zero => rfl
  | succ p ih =>
      rw [List.range_succ, List.foldl_append]
      simp only [List.foldl_cons, List.foldl_nil]
      rw [getD_set_ne _ _ _ _ _ (h p (by omega))]
      exact ih (fun j hj => h j (by omega))

theorem foldl_set_getD_hit (g : ℕ → ℕ) (w : ℕ → ℚ) (init : List ℚ)
    (m k j₀ : ℕ) (hj₀ : j₀ < m) (hg : g j₀ = k) (hk : k < init.length)
    (huniq : ∀ j, j < m → j ≠ j₀ → g j ≠ k) :
    ((List.range m).foldl (fun row j => row.set (g j) (w j)) init).getD k 0
      = w j₀ := by
  induction m with
  | zero => omega
  | succ p ih =>
      rw [List.range_succ, List.foldl_append]
      simp only [List.foldl_cons, List.foldl_nil]
      by_cases hlast : j₀ = p
      · subst hlast
        rw [hg]
        exact getD_set_self _ _ _ _
          (by rw [foldl_set_length]; exact hk)
      · rw [getD_set_ne _ _ _ _ _
          (huniq p (by omega) (fun he => hlast he.symm))]
        exact ih (by omega) (fun j hj hne => huniq j (by omega) hne)

theorem getD_replicate_zero (n k : ℕ) :
    (List.replicate n (0 : ℚ)).getD k 0 = 0 := by
  induction n generalizing k with
  | zero => cases k <;> rfl
  | succ m ih => cases k with
      | zero => rfl
      | succ kk => exact ih kk

theorem phase_row_getD_eq (N : ℕ) (R phase : ℚ) (hN : 2 ∣ N)
    (hR : 0 < R) (hp : |phase| < R) (k : ℕ) (hk : k < N) :
    (phase_coefficient_row N R phase).getD k 0
      = phase_row_closed_form N R phase k := by
  obtain ⟨half, hNhalf⟩ := hN
  have hhalfpos : 0 < half := by omega
  have hNQ : ((N : ℚ) / 2) = (half : ℚ) := by
    have h2 : (N : ℚ) = 2 * (half : ℚ) := by exact_mod_cast hNhalf
    rw [h2]; ring
  simp only [phase_coefficient_row, phase_row_closed_form]
  set s : ℚ := |((N : ℚ) / 2) * (phase / R)| with hs_def
  set f : ℕ := ⌊s⌋.toNat with hf_def
  set r : ℚ := s - (f : ℚ) with hr_def
  have hs_nonneg : 0 ≤ s := abs_nonneg _
  have habs : s = (half : ℚ) * (|phase| / R) := by
    rw [hs_def, abs_mul, hNQ, abs_div, abs_of_pos hR,
      abs_of_nonneg (by positivity : (0 : ℚ) ≤ (half : ℚ))]
  have hs_lt : s < (half : ℚ) := by
    rw [habs]
    have h1 : |phase| / R < 1 := (div_lt_one hR).mpr hp
    have h2 : (0 : ℚ) < (half : ℚ) := by exact_mod_cast hhalfpos
    calc (half : ℚ) * (|phase| / R) < (half : ℚ) * 1 :=
          mul_lt_mul_of_pos_left h1 h2
      _ = (half : ℚ) := mul_one _
  have hfZ : (f : ℤ) = ⌊s⌋ := by
    rw [hf_def]; exact Int.toNat_of_nonneg (Int.floor_nonneg.mpr hs_nonneg)
  have hf_lt : f < half := by
    have h1 : ⌊s⌋ < (half : ℤ) := Int.floor_lt.mpr (by exact_mod_cast hs_lt)
    omega
  have hbin_nonneg : ∀ j : ℕ, j ≤ f →
      0 ≤ (if 0 < phase then (N : ℤ) / 2 + (j : ℤ)
           else (N : ℤ) / 2 - 1 - (j : ℤ)) := by
    intro j hj
    by_cases hph : 0 < phase
    · rw [if_pos hph]; omega
    · rw [if_neg hph]; omega
  have hbin_inj : ∀ j j' : ℕ,
      (if 0 < phase then (N : ℤ) / 2 + (j : ℤ)
       else (N : ℤ) / 2 - 1 - (j : ℤ))
      = (if 0 < phase then (N : ℤ) / 2 + (j' : ℤ)
         else (N : ℤ) / 2 - 1 - (j' : ℤ)) → j = j' := by
    intro j j' h
    by_cases hph : 0 < phase
    · rw [if_pos hph, if_pos hph] at h; omega
    · rw [if_neg hph, if_neg hph] at h; omega
  have hcform : ∀ j : ℕ,
      (if 0 < phase then (N : ℤ) / 2 else (N : ℤ) / 2 - 1)
        + (if 0 < phase then (1 : ℤ) else -1) * (j : ℤ)
      = (if 0 < phase then (N : ℤ) / 2 + (j : ℤ)
         else (N : ℤ) / 2 - 1 - (j : ℤ)) := by
    intro j
    by_cases hph : 0 < phase
    · rw [if_pos hph, if_pos hph, if_pos hph]; ring
    · rw [if_neg hph, if_neg hph, if_neg hph]; ring
  simp only [hcform]
  have hext : ∀ (row : List ℚ), ∀ j ∈ List.range (f + 1),
      np_set row
        (if 0 < phase then (N : ℤ) / 2 + (j : ℤ)
         else (N : ℤ) / 2 - 1 - (j : ℤ))
        (if j = f then r else 1)
      = row.set
        ((if 0 < phase then (N : ℤ) / 2 + (j : ℤ)
          else (N : ℤ) / 2 - 1 - (j : ℤ))).toNat
        (if j = f then r else 1) := by
    intro row j hj
    have hjf : j ≤ f := by
      have := List.mem_range.mp hj; omega
    rw [np_set, if_neg (not_lt.mpr (hbin_nonneg j hjf))]
  rw [List.foldl_ext _ _ _ hext]
  by_cases hex : ∃ j, j ≤ f ∧ (k : ℤ)
      = (if 0 < phase then (N : ℤ) / 2 + (j : ℤ)
         else (N : ℤ) / 2 - 1 - (j : ℤ))
  · obtain ⟨j₀, hj₀f, hkj₀⟩ := hex
    have hgj₀ : ((if 0 < phase then (N : ℤ) / 2 + (j₀ : ℤ)
        else (N : ℤ) / 2 - 1 - (j₀ : ℤ))).toNat = k := by
      rw [← hkj₀]; exact Int.toNat_natCast k
    have huniq : ∀ j, j < f + 1 → j ≠ j₀ →
        ((if 0 < phase then (N : ℤ) / 2 + (j : ℤ)
          else (N : ℤ) / 2 - 1 - (j : ℤ))).toNat ≠ k := by
      intro j hj hne heq
      apply hne
      apply hbin_inj
      have hnn := hbin_nonneg j (by omega)
      have h1 := Int.toNat_of_nonneg hnn
      rw [heq] at h1
      rw [← h1, ← hkj₀]
    rw [foldl_set_getD_hit _ _ _ _ _ j₀ (by omega) hgj₀ (by simpa using hk)
      huniq]
    by_cases hjf : j₀ = f
    · subst hjf
      rw [if_pos rfl, if_pos hkj₀]
    · rw [if_neg hjf]
      have hne_f : ¬ ((k : ℤ)
          = (if 0 < phase then (N : ℤ) / 2 + (f : ℤ)
             else (N : ℤ) / 2 - 1 - (f : ℤ))) := by
        intro hcontra
        exact hjf (hbin_inj j₀ f (hkj₀.symm.trans hcontra))
      rw [if_neg hne_f, if_pos]
      rw [List.any_eq_true]
      exact ⟨j₀, List.mem_range.mpr (by omega), beq_iff_eq.mpr hkj₀⟩
  · have hnohit : ∀ j, j < f + 1 →
        ((if 0 < phase then (N : ℤ) / 2 + (j : ℤ)
          else (N : ℤ) / 2 - 1 - (j : ℤ))).toNat ≠ k := by
      intro j hj heq
      apply hex
      refine ⟨j, by omega, ?_⟩
      have h1 := Int.toNat_of_nonneg (hbin_nonneg j (by omega))
      rw [heq] at h1
      rw [← h1]
    rw [foldl_set_getD_not_hit _ _ _ _ _ hnohit, getD_replicate_zero]
    have hne_f : ¬ ((k : ℤ)
        = (if 0 < phase then (N : ℤ) / 2 + (f : ℤ)
           else (N : ℤ) / 2 - 1 - (f : ℤ))) := by
      intro hcontra
      exact hex ⟨f, le_refl f, hcontra⟩
    rw [if_neg hne_f, if_neg]
    intro hany
    obtain ⟨j, hjmem, hbeq⟩ := List.any_eq_true.mp hany
    exact hex ⟨j, by have := List.mem_range.mp hjmem; omega,
      beq_iff_eq.mp hbeq⟩

/-- Counterexample to C3: with 6 phase coefficients, `phase_range = 5`
and a spectrum at phase 4.5 (inside `[-5, 5]`), the constructed row is
`[0, 0, 0, 1, 1, 7/10]` — columns 3, 4 and 5 are all nonzero, so the row
is not a weighted combination of at most two adjacent control points. -/
theorem phase_row_not_two_adjacent :
    ((-5 : ℚ) ≤ 9 / 2 ∧ (9 / 2 : ℚ) ≤ 5)
  ∧ (phase_coefficient_row 6 5 (9 / 2)).getD 3 0 = 1
  ∧ (phase_coefficient_row 6 5 (9 / 2)).getD 4 0 = 1
  ∧ (phase_coefficient_row 6 5 (9 / 2)).getD 5 0 = 7 / 10
  ∧ ¬ at_most_two_adjacent (phase_coefficient_row 6 5 (9 / 2)) := by
  have hp9 : |(9 / 2 : ℚ)| < 5 := by
    rw [abs_of_pos (by norm_num : (0 : ℚ) < 9 / 2)]; norm_num
  have habs : |((6 : ℕ) : ℚ) / 2 * (9 / 2 / 5 : ℚ)| = 27 / 10 := by
    rw [show ((6 : ℕ) : ℚ) / 2 * (9 / 2 / 5 : ℚ) = 27 / 10 by norm_num]
    rw [abs_of_pos]
    norm_num
  have hfl : (⌊(27 / 10 : ℚ)⌋ : ℤ) = 2 := by norm_num
  have heval : ∀ k : ℕ, k < 6 →
      (phase_coefficient_row 6 5 (9 / 2)).getD k 0
        = phase_row_closed_form 6 5 (9 / 2) k :=
    fun k hk => phase_row_getD_eq 6 5 (9 / 2) (by decide) (by norm_num)
      hp9 k hk
  have h3 : (phase_coefficient_row 6 5 (9 / 2)).getD 3 0 = 1 := by
    rw [heval 3 (by decide)]
    simp only [phase_row_closed_form]
    rw [habs, hfl]
    norm_num [List.range_succ]
  have h4 : (phase_coefficient_row 6 5 (9 / 2)).getD 4 0 = 1 := by
    rw [heval 4 (by decide)]
    simp only [phase_row_closed_form]
    rw [habs, hfl]
    norm_num [List.range_succ]
    exact ⟨1, by norm_num, by norm_num⟩
  have h5 : (phase_coefficient_row 6 5 (9 / 2)).getD 5 0 = 7 / 10 := by
    rw [heval 5 (by decide)]
    simp only [phase_row_closed_form]
    rw [habs, hfl]
    norm_num [show Int.toNat 2 = 2 from rfl]
  refine ⟨⟨by norm_num, by norm_num⟩, h3, h4, h5, ?_⟩
  intro hA
  have := hA 3 5 (by omega) (by rw [h3]; norm_num) (by rw [h5]; norm_num)
  omega

/-- Claim C3 (amended): for an even coefficient count and a spectrum with
`|phase| < phase_range`, the row of the phase-coefficient matrix is the
cumulative weighting `phase_row_closed_form`: weight 1 on each of the
`full_bins` bins from the central bin towards the spectrum's side, and the
fractional `remainder` on the next bin — so the nonzero entries occupy at
most `full_bins + 1` consecutive columns, which is bounded by two adjacent
columns only when `phase_scale < 2`. -/
theorem phase_row_matches_closed_form (N : ℕ) (R phase : ℚ) (hN : 2 ∣ N)
    (hR : 0 < R) (hp : |phase| < R) (k : ℕ) (hk : k < N) :
    (phase_coefficient_row N R phase).getD k 0
      = phase_row_closed_form N R phase k :=
  phase_row_getD_eq N R phase hN hR hp k hk

/-- Witness for the amended C3 at the counterexample's input: column 5 of
the row for `N = 6`, `phase_range = 5`, `phase = 4.5`. -/
theorem phase_row_matches_closed_form_witness :
    (phase_coefficient_row 6 5 (9 / 2)).getD 5 0
      = phase_row_closed_form 6 5 (9 / 2) 5 :=
  phase_row_matches_closed_form 6 5 (9 / 2) (by decide) (by norm_num)
    (by rw [show |(9 / 2 : ℚ)| = 9 / 2 from abs_of_pos (by norm_num)]
        norm_num)
    5 (by decide)

theorem str_append_cancel_left (a b c : String) (h : a ++ b = a ++ c) :
    b = c := by
  apply String.ext
  have hd : a.data ++ b.data = a.data ++ c.data := by
    have h2 := congrArg String.data h
    simpa [String.data_append] using h2
  exact List.append_cancel_left hd

theorem str_append_cancel_right (a b c : String) (h : a ++ c = b ++ c) :
    a = b := by
  apply String.ext
  have hd : a.data ++ c.data = b.data ++ c.data := by
    have h2 := congrArg String.data h
    simpa [String.data_append] using h2
  exact List.append_cancel_right hd

theorem str_append_assoc (a b c : String) : (a ++ b) ++ c = a ++ (b ++ c) := by
  apply String.ext
  simp [String.data_append, List.append_assoc]

theorem dataset_hash_info_inj (s t : AnalysisSettings)
    (h : dataset_hash_info s = dataset_hash_info t) (k : ℕ) (hk : k < 8)
    (heq : ∀ j, j < 9 → j ≠ k →
      (settingsFields s).getD j "" = (settingsFields t).getD j "") :
    (settingsFields s).getD k "" = (settingsFields t).getD k "" := by
  simp only [dataset_hash_info, str_append_assoc] at h
  interval_cases k
  · have h1 : s.phase_range = t.phase_range := heq 1 (by omega) (by omega)
    have h2 : s.bin_velocity = t.bin_velocity := heq 2 (by omega) (by omega)
    have h3 : s.bin_min_wavelength = t.bin_min_wavelength :=
      heq 3 (by omega) (by omega)
    have h4 : s.bin_max_wavelength = t.bin_max_wavelength :=
      heq 4 (by omega) (by omega)
    have h5 : s.s2n_cut_min_wavelength = t.s2n_cut_min_wavelength :=
      heq 5 (by omega) (by omega)
    have h6 : s.s2n_cut_max_wavelength = t.s2n_cut_max_wavelength :=
      heq 6 (by omega) (by omega)
    have h7 : s.s2n_cut_threshold = t.s2n_cut_threshold :=
      heq 7 (by omega) (by omega)
    show s.idr = t.idr
    rw [h1, h2, h3, h4, h5, h6, h7] at h
    exact str_append_cancel_right _ _ _ h
  · have h0 : s.idr = t.idr := heq 0 (by omega) (by omega)
    have h2 : s.bin_velocity = t.bin_velocity := heq 2 (by omega) (by omega)
    have h3 : s.bin_min_wavelength = t.bin_min_wavelength :=
      heq 3 (by omega) (by omega)
    have h4 : s.bin_max_wavelength = t.bin_max_wavelength :=
      heq 4 (by omega) (by omega)
    have h5 : s.s2n_cut_min_wavelength = t.s2n_cut_min_wavelength :=
      heq 5 (by omega) (by omega)
    have h6 : s.s2n_cut_max_wavelength = t.s2n_cut_max_wavelength :=
      heq 6 (by omega) (by omega)
    have h7 : s.s2n_cut_threshold = t.s2n_cut_threshold :=
      heq 7 (by omega) (by omega)
    show s.phase_range = t.phase_range
    rw [h0, h2, h3, h4, h5, h6, h7] at h
    exact str_append_cancel_right _ _ _ (str_append_cancel_left _ _ _
      (str_append_cancel_left _ _ _ h))
  · have h0 : s.idr = t.idr := heq 0 (by omega) (by omega)
    have h1 : s.phase_range = t.phase_range := heq 1 (by omega) (by omega)
    have h3 : s.bin_min_wavelength = t.bin_min_wavelength :=
      heq 3 (by omega) (by omega)
    have h4 : s.bin_max_wavelength = t.bin_max_wavelength :=
      heq 4 (by omega) (by omega)
    have h5 : s.s2n_cut_min_wavelength = t.s2n_cut_min_wavelength :=
      heq 5 (by omega) (by omega)
    have h6 : s.s2n_cut_max_wavelength = t.s2n_cut_max_wavelength :=
      heq 6 (by omega) (by omega)
    have h7 : s.s2n_cut_threshold = t.s2n_cut_threshold :=
      heq 7 (by omega) (by omega)
    show s.bin_velocity = t.bin_velocity
    rw [h0, h1, h3, h4, h5, h6, h7] at h
    exact str_append_cancel_right _ _ _ (str_append_cancel_left _ _ _
      (str_append_cancel_left _ _ _ (str_append_cancel_left _ _ _
      (str_append_cancel_left _ _ _ h))))
  · have h0 : s.idr = t.idr := heq 0 (by omega) (by omega)
    have h1 : s.phase_range = t.phase_range := heq 1 (by omega) (by omega)
    have h2 : s.bin_velocity = t.bin_velocity := heq 2 (by omega) (by omega)
    have h4 : s.bin_max_wavelength = t.bin_max_wavelength :=
      heq 4 (by omega) (by omega)
    have h5 : s.s2n_cut_min_wavelength = t.s2n_cut_min_wavelength :=
      heq 5 (by omega) (by omega)
    have h6 : s.s2n_cut_max_wavelength = t.s2n_cut_max_wavelength :=
      heq 6 (by omega) (by omega)
    have h7 : s.s2n_cut_threshold = t.s2n_cut_threshold :=
      heq 7 (by omega) (by omega)
    show s.bin_min_wavelength = t.bin_min_wavelength
    rw [h0, h1, h2, h4, h5, h6, h7] at h
    exact str_append_cancel_right _ _ _ (str_append_cancel_left _ _ _
      (str_append_cancel_left _ _ _ (str_append_cancel_left _ _ _
      (str_append_cancel_left _ _ _ (str_append_cancel_left _ _ _
      (str_append_cancel_left _ _ _ h))))))
  · have h0 : s.idr = t.idr := heq 0 (by omega) (by omega)
    have h1 : s.phase_range = t.phase_range := heq 1 (by omega) (by omega)
    have h2 : s.bin_velocity = t.bin_velocity := heq 2 (by omega) (by omega)
    have h3 : s.bin_min_wavelength = t.bin_min_wavelength :=
      heq 3 (by omega) (by omega)
    have h5 : s.s2n_cut_min_wavelength = t.s2n_cut_min_wavelength :=
      heq 5 (by omega) (by omega)
    have h6 : s.s2n_cut_max_wavelength = t.s2n_cut_max_wavelength :=
      heq 6 (by omega) (by omega)
    have h7 : s.s2n_cut_threshold = t.s2n_cut_threshold :=
      heq 7 (by omega) (by omega)
    show s.bin_max_wavelength = t.bin_max_wavelength
    rw [h0, h1, h2, h3, h5, h6, h7] at h
    exact str_append_cancel_right _ _ _ (str_append_cancel_left _ _ _
      (str_append_cancel_left _ _ _ (str_append_cancel_left _ _ _
      (str_append_cancel_left _ _ _ (str_append_cancel_left _ _ _
      (str_append_cancel_left _ _ _ (str_append_cancel_left _ _ _
      (str_append_cancel_left _ _ _ h))))))))
  · have h0 : s.idr = t.idr := heq 0 (by omega) (by omega)
    have h1 : s.phase_range = t.phase_range := heq 1 (by omega) (by omega)
    have h2 : s.bin_velocity = t.bin_velocity := heq 2 (by omega) (by omega)
    have h3 : s.bin_min_wavelength = t.bin_min_wavelength :=
      heq 3 (by omega) (by omega)
    have h4 : s.bin_max_wavelength = t.bin_max_wavelength :=
      heq 4 (by omega) (by omega)
    have h6 : s.s2n_cut_max_wavelength = t.s2n_cut_max_wavelength :=
      heq 6 (by omega) (by omega)
    have h7 : s.s2n_cut_threshold = t.s2n_cut_threshold :=
      heq 7 (by omega) (by omega)
    show s.s2n_cut_min_wavelength = t.s2n_cut_min_wavelength
    rw [h0, h1, h2, h3, h4, h6, h7] at h
    exact str_append_cancel_right _ _ _ (str_append_cancel_left _ _ _
      (str_append_cancel_left _ _ _ (str_append_cancel_left _ _ _
      (str_append_cancel_left _ _ _ (str_append_cancel_left _ _ _
      (str_append_cancel_left _ _ _ (str_append_cancel_left _ _ _
      (str_append_cancel_left _ _ _ (str_append_cancel_left _ _ _
      (str_append_cancel_left _ _ _ h))))))))))
  · have h0 : s.idr = t.idr := heq 0 (by omega) (by omega)
    have h1 : s.phase_range = t.phase_range := heq 1 (by omega) (by omega)
    have h2 : s.bin_velocity = t.bin_velocity := heq 2 (by omega) (by omega)
    have h3 : s.bin_min_wavelength = t.bin_min_wavelength :=
      heq 3 (by omega) (by omega)
    have h4 : s.bin_max_wavelength = t.bin_max_wavelength :=
      heq 4 (by omega) (by omega)
    have h5 : s.s2n_cut_min_wavelength = t.s2n_cut_min_wavelength :=
      heq 5 (by omega) (by omega)
    have h7 : s.s2n_cut_threshold = t.s2n_cut_threshold :=
      heq 7 (by omega) (by omega)
    show s.s2n_cut_max_wavelength = t.s2n_cut_max_wavelength
    rw [h0, h1, h2, h3, h4, h5, h7] at h
    exact str_append_cancel_right _ _ _ (str_append_cancel_left _ _ _
      (str_append_cancel_left _ _ _ (str_append_cancel_left _ _ _
      (str_append_cancel_left _ _ _ (str_append_cancel_left _ _ _
      (str_append_cancel_left _ _ _ (str_append_cancel_left _ _ _
      (str_append_cancel_left _ _ _ (str_append_cancel_left _ _ _
      (str_append_cancel_left _ _ _ (str_append_cancel_left _ _ _
      (str_append_cancel_left _ _ _ h))))))))))))
  · have h0 : s.idr = t.idr := heq 0 (by omega) (by omega)
    have h1 : s.phase_range = t.phase_range := heq 1 (by omega) (by omega)
    have h2 : s.bin_velocity = t.bin_velocity := heq 2 (by omega) (by omega)
    have h3 : s.bin_min_wavelength = t.bin_min_wavelength :=
      heq 3 (by omega) (by omega)
    have h4 : s.bin_max_wavelength = t.bin_max_wavelength :=
      heq 4 (by omega) (by omega)
    have h5 : s.s2n_cut_min_wavelength = t.s2n_cut_min_wavelength :=
      heq 5 (by omega) (by omega)
    have h6 : s.s2n_cut_max_wavelength = t.s2n_cut_max_wavelength :=
      heq 6 (by omega) (by omega)
    show s.s2n_cut_threshold = t.s2n_cut_threshold
    rw [h0, h1, h2, h3, h4, h5, h6] at h
    exact str_append_cancel_left _ _ _ (str_append_cancel_left _ _ _
      (str_append_cancel_left _ _ _ (str_append_cancel_left _ _ _
      (str_append_cancel_left _ _ _ (str_append_cancel_left _ _ _
      (str_append_cancel_left _ _ _ (str_append_cancel_left _ _ _
      (str_append_cancel_left _ _ _ (str_append_cancel_left _ _ _
      (str_append_cancel_left _ _ _ (str_append_cancel_left _ _ _
      (str_append_cancel_left _ _ _ (str_append_cancel_left _ _ _
      h)))))))))))))

/-- Claim C6: two runs differing in exactly one configuration parameter
entering the hash formulas (position `k` of `settingsFields`: the eight
dataset parameters, or the phase-coefficient count at position 8) get
different maximum-light cache keys, and different dataset hashes when the
differing parameter is a dataset parameter — assuming the digest function
is collision-free on the hash-info strings involved (stated as
injectivity); the pre-digest hash-info strings themselves are proved
distinct, so the second run never gets a false cache hit on the first
run's entry. -/
theorem hash_sensitivity (md5 : String → String)
    (hinj : Function.Injective md5) (model_hash : String)
    (s t : AnalysisSettings) (k : ℕ) (hk : k < 9)
    (hne : (settingsFields s).getD k "" ≠ (settingsFields t).getD k "")
    (heq : ∀ j, j < 9 → j ≠ k →
      (settingsFields s).getD j "" = (settingsFields t).getD j "") :
    maximum_hash md5 model_hash s ≠ maximum_hash md5 model_hash t
  ∧ (k < 8 → dataset_hash md5 s ≠ dataset_hash md5 t) := by
  by_cases hk8 : k < 8
  · have hds : dataset_hash md5 s ≠ dataset_hash md5 t := fun h =>
      hne (dataset_hash_info_inj s t (hinj h) k hk8 heq)
    refine ⟨?_, fun _ => hds⟩
    intro h
    apply hds
    have h2 := hinj h
    have h8 : s.maximum_num_phase_coefficients
        = t.maximum_num_phase_coefficients := heq 8 (by omega) (by omega)
    simp only [maximum_hash_info, str_append_assoc] at h2
    rw [h8] at h2
    exact str_append_cancel_right _ _ _ h2
  · have hk9 : k = 8 := by omega
    subst hk9
    have h8ne : s.maximum_num_phase_coefficients
        ≠ t.maximum_num_phase_coefficients := hne
    have hdseq : dataset_hash_info s = dataset_hash_info t := by
      have h0 : s.idr = t.idr := heq 0 (by omega) (by omega)
      have h1 : s.phase_range = t.phase_range := heq 1 (by omega) (by omega)
      have h2 : s.bin_velocity = t.bin_velocity :=
        heq 2 (by omega) (by omega)
      have h3 : s.bin_min_wavelength = t.bin_min_wavelength :=
        heq 3 (by omega) (by omega)
      have h4 : s.bin_max_wavelength = t.bin_max_wavelength :=
        heq 4 (by omega) (by omega)
      have h5 : s.s2n_cut_min_wavelength = t.s2n_cut_min_wavelength :=
        heq 5 (by omega) (by omega)
      have h6 : s.s2n_cut_max_wavelength = t.s2n_cut_max_wavelength :=
        heq 6 (by omega) (by omega)
      have h7 : s.s2n_cut_threshold = t.s2n_cut_threshold :=
        heq 7 (by omega) (by omega)
      rw [dataset_hash_info, dataset_hash_info, h0, h1, h2, h3, h4, h5,
        h6, h7]
    refine ⟨?_, fun hcontra => by omega⟩
    intro h
    have h2 := hinj h
    simp only [maximum_hash_info, str_append_assoc] at h2
    rw [show dataset_hash md5 s = dataset_hash md5 t from by
      rw [dataset_hash, dataset_hash, hdseq]] at h2
    exact h8ne (str_append_cancel_left _ _ _ (str_append_cancel_left _ _ _
      (str_append_cancel_left _ _ _ (str_append_cancel_left _ _ _ h2))))

/-- Witness for C6: two settings differing only in `bin_velocity`
(position 2), digest taken as the identity function. -/
theorem hash_sensitivity_witness :
    maximum_hash id "m"
        ⟨"idr", "5", "1000", "3300", "8600", "3300", "3800", "100", "4"⟩
      ≠ maximum_hash id "m"
        ⟨"idr", "5", "2000", "3300", "8600", "3300", "3800", "100", "4"⟩
  ∧ (2 < 8 → dataset_hash id
        ⟨"idr", "5", "1000", "3300", "8600", "3300", "3800", "100", "4"⟩
      ≠ dataset_hash id
        ⟨"idr", "5", "2000", "3300", "8600", "3300", "3800", "100", "4"⟩) :=
  hash_sensitivity id (fun _ _ h => h) "m"
    ⟨"idr", "5", "1000", "3300", "8600", "3300", "3800", "100", "4"⟩
    ⟨"idr", "5", "2000", "3300", "8600", "3300", "3800", "100", "4"⟩
    2 (by omega) (by decide)
    (by intro j hj hjk
        interval_cases j
        all_goals first | rfl | exact absurd rfl hjk)

theorem headD_eq_getD {α : Type} (c : List α) (d : α) :
    c.headD d = c.getD 0 d := by
  cases c <;> rfl

theorem tail_getD (c : List ℚ) (j : ℕ) :
    c.tail.getD j 0 = c.getD (j + 1) 0 := by
  cases c <;> rfl

theorem getD_eq_getElem {α : Type} (l : List α) (i : ℕ) (d : α)
    (h : i < l.length) :
    l.getD i d = l[i] := by
  induction l generalizing i with
  | nil => simp at h
  | cons a as ih =>
      cases i with
      | zero => rfl
      | succ j => exact ih j (by simpa using h)

theorem getD_range (n k : ℕ) (h : k < n) :
    (List.range n).getD k 0 = k := by
  rw [getD_eq_getElem _ _ _ (by simpa using h)]
  simp

theorem getD_range_map {β : Type} (f : ℕ → β) (n k : ℕ) (d : β)
    (h : k < n) :
    ((List.range n).map f).getD k d = f k := by
  rw [getD_map f (List.range n) k 0 d (by simpa using h), getD_range n k h]

/-- The count of `false` entries among the first `i` mask positions: the
position of full-list index `i` inside the complement-selected sublist. -/
def count_false_before (m : List Bool) (i : ℕ) : ℕ :=
  (m.take i).count false

theorem count_true_before_map_not (m : List Bool) (i : ℕ) :
    count_true_before (m.map (!·)) i = count_false_before m i := by
  induction m generalizing i with
  | nil => cases i <;> rfl
  | cons b bs ih =>
      cases i with
      | zero => rfl
      | succ j =>
          simp only [count_true_before, count_false_before, List.map_cons,
            List.take_succ_cons, List.count_cons]
          have := ih j
          simp only [count_true_before, count_false_before] at this
          rw [this]
          cases b <;> rfl

theorem count_true_map_not (m : List Bool) :
    (m.map (!·)).count true = m.count false := by
  induction m with
  | nil => rfl
  | cons b bs ih =>
      simp only [List.map_cons, List.count_cons, ih]
      cases b <;> rfl

theorem count_true_before_lt_count (m : List Bool) (i : ℕ)
    (hi : i < m.length) (hm : m.getD i false = true) :
    count_true_before m i < m.count true := by
  induction m generalizing i with
  | nil => simp at hi
  | cons b bs ih =>
      cases i with
      | zero =>
          have hb : b = true := hm
          subst hb
          simp [count_true_before, List.count_cons]
      | succ j =>
          have hj := ih j (by simpa using hi) hm
          simp only [count_true_before, List.take_succ_cons,
            List.count_cons] at hj ⊢
          cases b <;> simp <;> omega

theorem length_mask_select {α : Type} (x : List α) (m : List Bool)
    (h : x.length = m.length) :
    (mask_select x m).length = m.count true := by
  induction x generalizing m with
  | nil =>
      cases m with
      | nil => rfl
      | cons b bs => simp at h
  | cons a as ih =>
      cases m with
      | nil => simp at h
      | cons b bs =>
          rw [mask_select]
          cases b
          · simpa [List.count_cons] using ih bs (by simpa using h)
          · rw [if_pos rfl]
            simp [List.count_cons, ih bs (by simpa using h)]


theorem mask_select_getD {α : Type} (x : List α) (m : List Bool) (i : ℕ)
    (d : α) (hlen : x.length = m.length) (hi : i < m.length)
    (hm : m.getD i false = true) :
    (mask_select x m).getD (count_true_before m i) d = x.getD i d := by
  induction x generalizing m i with
  | nil =>
      cases m with
      | nil => simp at hi
      | cons b bs => simp at hlen
  | cons a as ih =>
      cases m with
      | nil => simp at hi
      | cons b bs =>
          cases i with
          | zero =>
              have hb : b = true := hm
              subst hb
              rw [mask_select, if_pos rfl]
              rfl
          | succ j =>
              have hj : j < bs.length := by simpa using hi
              have hmj : bs.getD j false = true := hm
              rw [mask_select]
              cases b
              · rw [if_neg (by simp)]
                have hct : count_true_before (false :: bs) (j + 1)
                    = count_true_before bs j := by
                  simp [count_true_before, List.count_cons]
                rw [hct]
                exact ih bs j (by simpa using hlen) hj hmj
              · rw [if_pos rfl]
                have hct : count_true_before (true :: bs) (j + 1)
                    = count_true_before bs j + 1 := by
                  simp [count_true_before, List.count_cons]
                rw [hct]
                show (mask_select as bs).getD (count_true_before bs j) d
                  = as.getD j d
                exact ih bs j (by simpa using hlen) hj hmj

theorem length_scatter (m : List Bool) (c o : List ℚ) :
    (scatter_by_mask m c o).length = m.length := by
  induction m generalizing c o with
  | nil => rfl
  | cons b bs ih =>
      rw [scatter_by_mask]
      cases b
      · rw [if_neg (by simp)]
        simp [ih]
      · rw [if_pos rfl]
        simp [ih]

theorem scatter_getD_true (m : List Bool) (c o : List ℚ) (i : ℕ)
    (hi : i < m.length) (hm : m.getD i false = true) :
    (scatter_by_mask m c o).getD i 0 = c.getD (count_true_before m i) 0 := by
  induction m generalizing c o i with
  | nil => simp at hi
  | cons b bs ih =>
      cases i with
      | zero =>
          have hb : b = true := hm
          subst hb
          rw [scatter_by_mask, if_pos rfl]
          show c.headD 0 = c.getD (count_true_before (true :: bs) 0) 0
          rw [headD_eq_getD]
          rfl
      | succ j =>
          have hj : j < bs.length := by simpa using hi
          have hmj : bs.getD j false = true := hm
          rw [scatter_by_mask]
          cases b
          · rw [if_neg (by simp)]
            have hct : count_true_before (false :: bs) (j + 1)
                = count_true_before bs j := by
              simp [count_true_before, List.count_cons]
            rw [hct]
            show (scatter_by_mask bs c o.tail).getD j 0
              = c.getD (count_true_before bs j) 0
            exact ih c o.tail j hj hmj
          · rw [if_pos rfl]
            have hct : count_true_before (true :: bs) (j + 1)
                = count_true_before bs j + 1 := by
              simp [count_true_before, List.count_cons]
            rw [hct]
            show (scatter_by_mask bs c.tail o).getD j 0
              = c.getD (count_true_before bs j + 1) 0
            rw [ih c.tail o j hj hmj, tail_getD]

theorem scatter_getD_false (m : List Bool) (c o : List ℚ) (i : ℕ)
    (hi : i < m.length) (hm : m.getD i false = false) :
    (scatter_by_mask m c o).getD i 0
      = o.getD (count_false_before m i) 0 := by
  induction m generalizing c o i with
  | nil => simp at hi
  | cons b bs ih =>
      cases i with
      | zero =>
          have hb : b = false := hm
          subst hb
          rw [scatter_by_mask, if_neg (by simp)]
          show o.headD 0 = o.getD (count_false_before (false :: bs) 0) 0
          rw [headD_eq_getD]
          rfl
      | succ j =>
          have hj : j < bs.length := by simpa using hi
          have hmj : bs.getD j false = false := hm
          rw [scatter_by_mask]
          cases b
          · rw [if_neg (by simp)]
            have hcf : count_false_before (false :: bs) (j + 1)
                = count_false_before bs j + 1 := by
              simp [count_false_before, List.count_cons]
            rw [hcf]
            show (scatter_by_mask bs c o.tail).getD j 0
              = o.getD (count_false_before bs j + 1) 0
            rw [ih c o.tail j hj hmj, tail_getD]
          · rw [if_pos rfl]
            have hcf : count_false_before (true :: bs) (j + 1)
                = count_false_before bs j := by
              simp [count_false_before, List.count_cons]
            rw [hcf]
            exact ih c.tail o j hj hmj

theorem list_ext_getD (l₁ l₂ : List ℚ) (hlen : l₁.length = l₂.length)
    (h : ∀ i, i < l₁.length → l₁.getD i 0 = l₂.getD i 0) : l₁ = l₂ := by
  apply List.ext_getElem hlen
  intro i h1 h2
  have h3 := h i h1
  rwa [getD_eq_getElem _ _ _ h1, getD_eq_getElem _ _ _ h2] at h3

/-- Claim C1: `_predict_gp_oos` computes exactly the per-position spec
`predict_gp_oos_spec` — every row of the conditioning subset is predicted
from the subset with itself (or, when groups are given, its whole group)
removed, and every row outside the subset is predicted once from the
entire subset. -/
theorem predict_gp_oos_eq_spec {α G : Type} [Inhabited α] [Inhabited G]
    [DecidableEq G]
    (predict : α → ℚ → List α → List ℚ → List ℚ → List ℚ → ℚ)
    (x : List α) (y yerr color : List ℚ)
    (condition_mask : Option (List Bool)) (groups : Option (List G))
    (hcolor : color.length = x.length)
    (hm : ∀ m, condition_mask = some m → m.length = x.length) :
    predict_gp_oos predict x y yerr color condition_mask groups
      = predict_gp_oos_spec predict x y yerr color condition_mask groups := by
  cases condition_mask with
  | none => rfl
  | some m =>
      have hmlen : m.length = x.length := hm m rfl
      simp only [predict_gp_oos, predict_gp_oos_spec]
      apply list_ext_getD
      · rw [length_scatter, hmlen, List.length_map, List.length_range]
      · intro i hilen
        have hi : i < m.length := by rwa [length_scatter] at hilen
        have hix : i < x.length := by omega
        rw [getD_range_map _ _ _ _ hix]
        by_cases hmi : m.getD i false = true
        · rw [scatter_getD_true m _ _ i hi hmi]
          have hb : count_true_before m i < (mask_select x m).length := by
            rw [length_mask_select x m hmlen.symm]
            exact count_true_before_lt_count m i hi hmi
          rw [getD_range_map _ _ _ _ hb, if_pos hmi]
        · have hmi0 : m.getD i false = false := by
            revert hmi; cases m.getD i false <;> simp
          rw [scatter_getD_false m _ _ i hi hmi0, if_neg hmi]
          have hxlen : x.length = (m.map (!·)).length := by
            simp [hmlen.symm]
          have hclen : color.length = (m.map (!·)).length := by
            simp [hcolor, hmlen.symm]
          have hnotm : (m.map (!·)).getD i false = true := by
            rw [getD_map (!·) m i false false hi, hmi0]
            rfl
          have hctb := count_true_before_lt_count (m.map (!·)) i
            (by simpa using hi) hnotm
          rw [count_true_before_map_not, count_true_map_not] at hctb
          have hcfb_x : count_false_before m i
              < (mask_select x (m.map (!·))).length := by
            rw [length_mask_select _ _ hxlen, count_true_map_not]
            exact hctb
          have hcfb_c : count_false_before m i
              < (mask_select color (m.map (!·))).length := by
            rw [length_mask_select _ _ hclen, count_true_map_not]
            exact hctb
          rw [getD_zipWith _ _ _ _ default 0 0 hcfb_x hcfb_c,
            ← count_true_before_map_not m i,
            mask_select_getD x (m.map (!·)) i default hxlen
              (by simpa using hi) hnotm,
            mask_select_getD color (m.map (!·)) i 0 hclen
              (by simpa using hi) hnotm]

/-- Witness for C1 at concrete data: three rows, the first and third
conditioning, with a group array making the two conditioning rows one
group. -/
theorem predict_gp_oos_eq_spec_witness :
    predict_gp_oos
      (fun (px : ℚ) (pc : ℚ) (cx : List ℚ) (cy : List ℚ) (cyerr : List ℚ)
          (ccol : List ℚ) =>
        px + 2 * pc + cx.foldl (· + ·) 0 + cy.foldl (· + ·) 0
          + cyerr.foldl (· + ·) 0 + ccol.foldl (· + ·) 0)
      [1, 2, 3] [10, 20, 30] [1, 1, 2] [5, 6, 7]
      (some [true, false, true]) (some [(4 : ℤ), 4])
      = predict_gp_oos_spec
      (fun (px : ℚ) (pc : ℚ) (cx : List ℚ) (cy : List ℚ) (cyerr : List ℚ)
          (ccol : List ℚ) =>
        px + 2 * pc + cx.foldl (· + ·) 0 + cy.foldl (· + ·) 0
          + cyerr.foldl (· + ·) 0 + ccol.foldl (· + ·) 0)
      [1, 2, 3] [10, 20, 30] [1, 1, 2] [5, 6, 7]
      (some [true, false, true]) (some [(4 : ℤ), 4]) :=
  predict_gp_oos_eq_spec _ [1, 2, 3] [10, 20, 30] [1, 1, 2] [5, 6, 7]
    (some [true, false, true]) (some [(4 : ℤ), 4]) (by simp)
    (fun m hm => by cases hm; rfl)

end ManifoldTwins
